import Mathlib

/-!
Verification of the price-dumping (repricing) core of the seller-assistant
backend, shallowly embedded in Lean 4.

Prices are Go `float64` values; every arithmetic operation the core performs
on them (subtraction of the constant margin, `<`, `==` comparisons) is exact
on the rationals, so prices and timestamps are embedded as `Rat`.

External collaborators (Kaspi marketplace API, Mongo product repository,
credential store, AES decryptor) are embedded as an explicit environment of
oracle functions returning `Except String _`, mirroring Go's `(T, error)`
results.  Every externally visible mutation call the engine makes
(`client.UpdateProductPrice`, i.e. publish to the marketplace, and
`productRepo.UpdatePrice`, i.e. the store write that also bumps the
last-price-check timestamp) is recorded in an event trace, in call order.
-/

namespace SellerAssistant

/-- Embeds `kaspi.CompetitorPrice` (internal/marketplace/kaspi/price.go):
seller name and price of one competitor observation. -/
structure CompetitorPrice where
  sellerName : String
  price : Rat
deriving DecidableEq, Repr

/-- Embeds `kaspi.GetMinCompetitorPrice` (internal/marketplace/kaspi/price.go):
returns 0 for an empty slice, otherwise starts from `prices[0].Price` and
takes every strictly smaller price seen while ranging over the slice. -/
def GetMinCompetitorPrice (prices : List CompetitorPrice) : Rat :=
  match prices with
  | [] => 0
  | p :: rest => (p :: rest).foldl (fun minPrice q => if q.price < minPrice then q.price else minPrice) p.price

/-- The running minimum in `GetMinCompetitorPrice` never exceeds its seed. -/
theorem foldlMin_le_init (l : List CompetitorPrice) (a : Rat) :
    l.foldl (fun minPrice q => if q.price < minPrice then q.price else minPrice) a ≤ a := by
  induction l generalizing a with
  | nil => simp
  | cons p rest ih =>
    simp only [List.foldl_cons]
    by_cases h : p.price < a
    · rw [if_pos h]
      exact le_trans (ih p.price) (le_of_lt h)
    · rw [if_neg h]
      exact ih a

/-- The running minimum in `GetMinCompetitorPrice` is a lower bound of the
remaining elements. -/
theorem foldlMin_le_mem (l : List CompetitorPrice) (a : Rat) :
    ∀ p ∈ l, l.foldl (fun minPrice q => if q.price < minPrice then q.price else minPrice) a ≤ p.price := by
  induction l generalizing a with
  | nil => intro p hp; simp at hp
  | cons q rest ih =>
    intro p hp
    rcases List.mem_cons.mp hp with hq | hrest
    · subst hq
      simp only [List.foldl_cons]
      by_cases h : p.price < a
      · rw [if_pos h]
        exact foldlMin_le_init rest p.price
      · rw [if_neg h]
        exact le_trans (foldlMin_le_init rest a) (le_of_not_lt h)
    · simp only [List.foldl_cons]
      by_cases h : q.price < a
      · rw [if_pos h]; exact ih q.price p hrest
      · rw [if_neg h]; exact ih a p hrest

/-- The running minimum in `GetMinCompetitorPrice` is its seed or the price
of some element. -/
theorem foldlMin_attained (l : List CompetitorPrice) (a : Rat) :
    l.foldl (fun minPrice q => if q.price < minPrice then q.price else minPrice) a = a ∨
    ∃ p ∈ l, l.foldl (fun minPrice q => if q.price < minPrice then q.price else minPrice) a = p.price := by
  induction l generalizing a with
  | nil => left; rfl
  | cons q rest ih =>
    simp only [List.foldl_cons]
    by_cases h : q.price < a
    · rw [if_pos h]
      rcases ih q.price with heq | ⟨p, hp, heq⟩
      · right; exact ⟨q, List.mem_cons_self q rest, heq⟩
      · right; exact ⟨p, List.mem_cons_of_mem q hp, heq⟩
    · rw [if_neg h]
      rcases ih a with heq | ⟨p, hp, heq⟩
      · left; exact heq
      · right; exact ⟨p, List.mem_cons_of_mem q hp, heq⟩

/-- Claim C10: `GetMinCompetitorPrice` is total: it returns 0 on the empty
list, and on a non-empty list it returns the price of some element and a
lower bound of the prices of all elements. -/
theorem getMinCompetitorPrice_spec (prices : List CompetitorPrice) :
    (prices = [] → GetMinCompetitorPrice prices = 0) ∧
    (prices ≠ [] →
      (∃ p ∈ prices, GetMinCompetitorPrice prices = p.price) ∧
      ∀ p ∈ prices, GetMinCompetitorPrice prices ≤ p.price) := by
  constructor
  · intro h; subst h; rfl
  · intro hne
    match prices with
    | [] => exact absurd rfl hne
    | p :: rest =>
      constructor
      · rcases foldlMin_attained (p :: rest) p.price with heq | ⟨q, hq, heq⟩
        · exact ⟨p, List.mem_cons_self p rest, heq⟩
        · exact ⟨q, hq, heq⟩
      · intro q hq
        exact foldlMin_le_mem (p :: rest) p.price q hq

/-- Claim C10, witness: concrete evaluation on a two-element list. -/
theorem getMinCompetitorPrice_spec_witness :
    (∃ p ∈ [CompetitorPrice.mk "A" 300, CompetitorPrice.mk "B" 200],
      GetMinCompetitorPrice [CompetitorPrice.mk "A" 300, CompetitorPrice.mk "B" 200] = p.price) ∧
    ∀ p ∈ [CompetitorPrice.mk "A" 300, CompetitorPrice.mk "B" 200],
      GetMinCompetitorPrice [CompetitorPrice.mk "A" 300, CompetitorPrice.mk "B" 200] ≤ p.price :=
  (getMinCompetitorPrice_spec [CompetitorPrice.mk "A" 300, CompetitorPrice.mk "B" 200]).2 (by decide)

/-- Embeds `kaspi.Client` (internal/marketplace/kaspi/client.go): API key and
merchant id bound by `NewClient` (the embedded `http.Client` carries no
data relevant to the decision logic). -/
structure Client where
  apiKey : String
  merchantID : String
deriving DecidableEq, Repr

/-- Embeds `domain.Product` (internal/domain/user.go), restricted to the fields the
repricing engine reads: identity, current price, floor price (`MinPrice`),
and the last-price-check timestamp (a `time.Time`, embedded as rational
seconds).  The remaining Go fields (SKU, stock, currency, velocity, sync
timestamps, flags) are never read by `processProduct` or the counting in
`ProcessUserProducts`. -/
structure Product where
  id : String
  externalID : String
  name : String
  price : Rat
  minPrice : Rat
  lastPriceCheckAt : Rat
deriving DecidableEq, Repr

/-- Embeds `domain.KaspiKey` (internal/domain/marketplace.go), restricted to the
fields `ProcessAllUsers`/`getKaspiClient` read. -/
structure KaspiKey where
  userID : String
  apiKeyEncrypted : String
  merchantID : String
deriving DecidableEq, Repr

/-- One externally visible mutation call made by the engine, in call order:
`publishPrice` is `client.UpdateProductPrice(externalID, newPrice)` (the
marketplace publish); `storeUpdatePrice` is
`productRepo.UpdatePrice(id, newPrice, competitorMin)` (the Mongo write,
which also sets `last_price_check_at`/`updated_at` to the current time —
see `ProductRepository.UpdatePrice` in the mongodb layer). -/
inductive Event where
  | publishPrice (externalID : String) (newPrice : Rat)
  | storeUpdatePrice (id : String) (newPrice : Rat) (competitorMin : Rat)
deriving DecidableEq, Repr

/-- The external collaborators of `PriceDumpingService`, as oracles:
`getCompetitorPrices`/`updateProductPrice` are the Kaspi client calls,
`repoUpdatePrice` is `productRepo.UpdatePrice`, `getProductsForDumping` is
`productRepo.GetProductsForDumping`, `getAllActive` is
`kaspiKeyRepo.GetAllActive`, and `decrypt` is `encryptor.Decrypt`. -/
structure DumpEnv where
  getCompetitorPrices : Client → String → Except String (List CompetitorPrice)
  updateProductPrice : Client → String → Rat → Except String Unit
  repoUpdatePrice : String → Rat → Rat → Except String Unit
  getProductsForDumping : String → Except String (List Product)
  getAllActive : Except String (List KaspiKey)
  decrypt : String → Except String String

/-- Embeds `service.PriceDumpMargin = 1.0`: how many tenge below the cheapest
competitor the new price is set. -/
def PriceDumpMargin : Rat := 1

/-- Embeds `PriceDumpingService.processProduct`: fetch competitor prices (error →
fail), return successfully with no effect if there are none, otherwise the
candidate is the minimum competitor price minus `PriceDumpMargin`
(the Go locals `minCompetitorPrice` and `newPrice` are inlined below);
if the floor `MinPrice` is positive and the candidate is below it, or the
candidate equals the current price, write only the refreshed competitor
minimum (price unchanged); otherwise publish the candidate to Kaspi and, on
success, write it to the store.  The second component is the trace of
mutation calls made. -/
def processProduct (env : DumpEnv) (client : Client) (product : Product) :
    Except String Unit × List Event :=
  match env.getCompetitorPrices client product.externalID with
  | Except.error e => (Except.error ("failed to get competitor prices: " ++ e), [])
  | Except.ok competitorPrices =>
    if competitorPrices.length = 0 then
      (Except.ok (), [])
    else
      if 0 < product.minPrice ∧
          GetMinCompetitorPrice competitorPrices - PriceDumpMargin < product.minPrice then
        (match env.repoUpdatePrice product.id product.price (GetMinCompetitorPrice competitorPrices) with
         | Except.error e => Except.error ("failed to update competitor price: " ++ e)
         | Except.ok _ => Except.ok (),
         [Event.storeUpdatePrice product.id product.price (GetMinCompetitorPrice competitorPrices)])
      else if product.price = GetMinCompetitorPrice competitorPrices - PriceDumpMargin then
        (match env.repoUpdatePrice product.id product.price (GetMinCompetitorPrice competitorPrices) with
         | Except.error e => Except.error ("failed to update price check time: " ++ e)
         | Except.ok _ => Except.ok (),
         [Event.storeUpdatePrice product.id product.price (GetMinCompetitorPrice competitorPrices)])
      else
        match env.updateProductPrice client product.externalID
            (GetMinCompetitorPrice competitorPrices - PriceDumpMargin) with
        | Except.error e =>
            (Except.error ("failed to update price on Kaspi: " ++ e),
             [Event.publishPrice product.externalID
                (GetMinCompetitorPrice competitorPrices - PriceDumpMargin)])
        | Except.ok _ =>
            (match env.repoUpdatePrice product.id
                (GetMinCompetitorPrice competitorPrices - PriceDumpMargin)
                (GetMinCompetitorPrice competitorPrices) with
             | Except.error e => Except.error ("failed to update price in database: " ++ e)
             | Except.ok _ => Except.ok (),
             [Event.publishPrice product.externalID
                (GetMinCompetitorPrice competitorPrices - PriceDumpMargin),
              Event.storeUpdatePrice product.id
                (GetMinCompetitorPrice competitorPrices - PriceDumpMargin)
                (GetMinCompetitorPrice competitorPrices)])

/-- Embeds `PriceDumpingService.getKaspiClient`: decrypt the stored API key and
build a client bound to it and the merchant id. -/
def getKaspiClient (env : DumpEnv) (key : KaspiKey) : Except String Client :=
  match env.decrypt key.apiKeyEncrypted with
  | Except.error e => Except.error ("failed to decrypt API key: " ++ e)
  | Except.ok apiKey => Except.ok { apiKey := apiKey, merchantID := key.merchantID }

/-- The per-product loop body of `PriceDumpingService.ProcessUserProducts`:
on a `processProduct` error the product is logged and skipped (`continue`);
on success `processedCount` is incremented, and `updatedCount` is
incremented when the in-memory `product.LastPriceCheckAt` is strictly after
`time.Now().Add(-10 * time.Second)` — i.e. `now - 10 < lastPriceCheckAt`,
with `now` the wall clock (embedded as a parameter).  The accumulator is
(trace so far, processedCount, updatedCount); effects of failed products
still happened, so their traces are kept. -/
def processLoop (env : DumpEnv) (client : Client) (now : Rat) (products : List Product) :
    List Event × Nat × Nat :=
  products.foldl
    (fun acc product =>
      match processProduct env client product with
      | (Except.error _, tr) => (acc.1 ++ tr, acc.2.1, acc.2.2)
      | (Except.ok _, tr) =>
          (acc.1 ++ tr, acc.2.1 + 1,
           if now - 10 < product.lastPriceCheckAt then acc.2.2 + 1 else acc.2.2))
    ([], 0, 0)

/-- Embeds `PriceDumpingService.ProcessUserProducts`: list the user's
dumping-enabled in-stock products (error → fail), return early when there
are none, build the Kaspi client (error → fail), then run the per-product
loop.  Result: (error status, trace, processedCount, updatedCount). -/
def ProcessUserProducts (env : DumpEnv) (now : Rat) (userID : String) (key : KaspiKey) :
    Except String Unit × List Event × Nat × Nat :=
  match env.getProductsForDumping userID with
  | Except.error e => (Except.error ("failed to get products for dumping: " ++ e), [], 0, 0)
  | Except.ok products =>
    if products.length = 0 then
      (Except.ok (), [], 0, 0)
    else
      match getKaspiClient env key with
      | Except.error e => (Except.error ("failed to create Kaspi client: " ++ e), [], 0, 0)
      | Except.ok client => (Except.ok (), processLoop env client now products)

/-- The per-user loop body of `PriceDumpingService.ProcessAllUsers`: a
failing `ProcessUserProducts` is logged and counted in `errorCount`, a
successful one in `successCount`; neither stops the loop.  The accumulator
is (trace so far, successCount, errorCount). -/
def usersLoop (env : DumpEnv) (now : Rat) (keys : List KaspiKey) :
    List Event × Nat × Nat :=
  keys.foldl
    (fun acc key =>
      match ProcessUserProducts env now key.userID key with
      | (Except.error _, tr, _, _) => (acc.1 ++ tr, acc.2.1, acc.2.2 + 1)
      | (Except.ok _, tr, _, _) => (acc.1 ++ tr, acc.2.1 + 1, acc.2.2))
    ([], 0, 0)

/-- Embeds `PriceDumpingService.ProcessAllUsers`: enumerate active credentials
(error → return the wrapped error), process every user, and return nil.
Result: (error status, trace, successCount, errorCount). -/
def ProcessAllUsers (env : DumpEnv) (now : Rat) :
    Except String Unit × List Event × Nat × Nat :=
  match env.getAllActive with
  | Except.error e => (Except.error ("failed to get active keys: " ++ e), [], 0, 0)
  | Except.ok keys => (Except.ok (), usersLoop env now keys)

/-- A concrete client for witness evaluations. -/
def clientA : Client := { apiKey := "key", merchantID := "m1" }

/-- A concrete credential record. -/
def keyA : KaspiKey := { userID := "u1", apiKeyEncrypted := "enc", merchantID := "m1" }

/-- Environment whose competitor fetch returns `obs` and whose mutation and
repository calls all succeed. -/
def envObs (obs : List CompetitorPrice) : DumpEnv where
  getCompetitorPrices := fun _ _ => Except.ok obs
  updateProductPrice := fun _ _ _ => Except.ok ()
  repoUpdatePrice := fun _ _ _ => Except.ok ()
  getProductsForDumping := fun _ => Except.ok []
  getAllActive := Except.ok []
  decrypt := fun _ => Except.ok "key"

/-- Product with no floor (`MinPrice = 0`) and current price 100. -/
def prodNoFloor : Product :=
  { id := "p1", externalID := "e1", name := "A", price := 100, minPrice := 0, lastPriceCheckAt := 0 }

/-- Product whose current price 100 is already below its floor 200. -/
def prodBelowFloor : Product :=
  { id := "p2", externalID := "e2", name := "B", price := 100, minPrice := 200, lastPriceCheckAt := 0 }

/-- Product of spec scenario 1: current price 15500, no floor. -/
def prodScenario1 : Product :=
  { id := "p3", externalID := "e3", name := "C", price := 15500, minPrice := 0, lastPriceCheckAt := 0 }

/-- Product with current price 15500 and floor 14000. -/
def prodFloor : Product :=
  { id := "p4", externalID := "e4", name := "D", price := 15500, minPrice := 14000, lastPriceCheckAt := 0 }

/-- Claim C1, counterexample to `newPrice ≥ 0`: with a non-empty observation
list whose minimum price is 0 and no floor, `processProduct` decides an
update and publishes and stores the negative price −1 = 0 − margin: the
code has no clamp to 0. -/
theorem processProduct_decides_negative_price :
    (processProduct (envObs [CompetitorPrice.mk "X" 0]) clientA prodNoFloor).2
      = [Event.publishPrice "e1" (-1), Event.storeUpdatePrice "p1" (-1) 0]
    ∧ ¬ (0 ≤ (-1 : Rat)) := by
  constructor
  · norm_num [processProduct, envObs, prodNoFloor, GetMinCompetitorPrice, PriceDumpMargin]
  · norm_num

/-- Claim C2, counterexample: a product whose current price 100 is already
below its positive floor 200 hits the floor-guard path (candidate 149 <
200), and that path writes the current price 100 — a value strictly below
the floor — to the store. -/
theorem processProduct_writes_current_price_below_floor :
    (processProduct (envObs [CompetitorPrice.mk "S" 150]) clientA prodBelowFloor).2
      = [Event.storeUpdatePrice "p2" 100 150]
    ∧ 0 < prodBelowFloor.minPrice ∧ (100 : Rat) < prodBelowFloor.minPrice := by
  refine ⟨?_, ?_, ?_⟩
  · norm_num [processProduct, envObs, prodBelowFloor, GetMinCompetitorPrice, PriceDumpMargin]
  · norm_num [prodBelowFloor]
  · norm_num [prodBelowFloor]

/-- Product used to exhibit the miscounting of `updatedCount`: its stored
`LastPriceCheckAt` is far in the past (0), and an update is genuinely
committed for it. -/
def prodStale : Product :=
  { id := "p9", externalID := "e9", name := "E", price := 15500, minPrice := 0, lastPriceCheckAt := 0 }

/-- Environment for the `updatedCount` bug: one eligible product, healthy
competitor fetch, publish and store. -/
def envStale : DumpEnv where
  getCompetitorPrices := fun _ _ => Except.ok [CompetitorPrice.mk "X" 15000]
  updateProductPrice := fun _ _ _ => Except.ok ()
  repoUpdatePrice := fun _ _ _ => Except.ok ()
  getProductsForDumping := fun _ => Except.ok [prodStale]
  getAllActive := Except.ok [keyA]
  decrypt := fun _ => Except.ok "key"

/-- Claim C9: `ProcessUserProducts` commits a price update for the single
product (the publish and the store write are both in the trace) yet reports
`updatedCount = 0`: the count tests the in-memory `LastPriceCheckAt`, which
`processProduct` never refreshes (only the database copy is), so at wall
clock 1000000 the stale timestamp 0 fails the `now − 10 <` test even though
an update was committed in this very pass. -/
theorem processUserProducts_updatedCount_misses_committed_update :
    (ProcessUserProducts envStale 1000000 "u1" keyA).1 = Except.ok ()
    ∧ (ProcessUserProducts envStale 1000000 "u1" keyA).2.1
        = [Event.publishPrice "e9" 14999, Event.storeUpdatePrice "p9" 14999 15000]
    ∧ (ProcessUserProducts envStale 1000000 "u1" keyA).2.2.2 = 0 := by
  refine ⟨?_, ?_, ?_⟩
  · norm_num [ProcessUserProducts, processLoop, getKaspiClient, envStale, keyA, prodStale,
      processProduct, GetMinCompetitorPrice, PriceDumpMargin]
  · norm_num [ProcessUserProducts, processLoop, getKaspiClient, envStale, keyA, prodStale,
      processProduct, GetMinCompetitorPrice, PriceDumpMargin]
  · norm_num [ProcessUserProducts, processLoop, getKaspiClient, envStale, keyA, prodStale,
      processProduct, GetMinCompetitorPrice, PriceDumpMargin]

/-- Claim C5: when the competitor fetch returns an empty observation list,
`processProduct` succeeds immediately: no publish call, no store write,
nothing mutated. -/
theorem processProduct_no_competitors_no_effects
    (env : DumpEnv) (client : Client) (product : Product)
    (hfetch : env.getCompetitorPrices client product.externalID = Except.ok []) :
    processProduct env client product = (Except.ok (), []) := by
  simp [processProduct, hfetch]

/-- Claim C5, witness: concrete run with an empty observation list. -/
theorem processProduct_no_competitors_no_effects_witness :
    processProduct (envObs []) clientA prodScenario1 = (Except.ok (), []) :=
  processProduct_no_competitors_no_effects (envObs []) clientA prodScenario1 rfl

/-- Claim C3: with a non-empty observation list, when the floor guard does
not fire and the candidate `min − margin` differs from the current price,
`processProduct` publishes exactly the candidate to the marketplace and
writes exactly the same candidate (with the refreshed competitor minimum)
to the store, returning success. -/
theorem processProduct_update_commits_candidate
    (env : DumpEnv) (client : Client) (product : Product) (obs : List CompetitorPrice)
    (hfetch : env.getCompetitorPrices client product.externalID = Except.ok obs)
    (hne : obs ≠ [])
    (hguard : ¬ (0 < product.minPrice ∧
        GetMinCompetitorPrice obs - PriceDumpMargin < product.minPrice))
    (hdiff : product.price ≠ GetMinCompetitorPrice obs - PriceDumpMargin)
    (hpub : env.updateProductPrice client product.externalID
        (GetMinCompetitorPrice obs - PriceDumpMargin) = Except.ok ())
    (hstore : env.repoUpdatePrice product.id
        (GetMinCompetitorPrice obs - PriceDumpMargin)
        (GetMinCompetitorPrice obs) = Except.ok ()) :
    processProduct env client product =
      (Except.ok (),
       [Event.publishPrice product.externalID (GetMinCompetitorPrice obs - PriceDumpMargin),
        Event.storeUpdatePrice product.id (GetMinCompetitorPrice obs - PriceDumpMargin)
          (GetMinCompetitorPrice obs)]) := by
  have hlen : ¬ obs.length = 0 := by simpa [List.length_eq_zero] using hne
  simp only [processProduct, hfetch]
  rw [if_neg hlen, if_neg hguard, if_neg hdiff, hpub, hstore]

/-- Claim C3, witness (spec scenario 1): observations `[(X, 15000)]`, floor
0, current 15500 — the committed price is `15000 − 1 = 14999`, both in the
publish call and in the store write. -/
theorem processProduct_update_commits_candidate_witness :
    (processProduct (envObs [CompetitorPrice.mk "X" 15000]) clientA prodScenario1
      = (Except.ok (),
         [Event.publishPrice "e3"
            (GetMinCompetitorPrice [CompetitorPrice.mk "X" 15000] - PriceDumpMargin),
          Event.storeUpdatePrice "p3"
            (GetMinCompetitorPrice [CompetitorPrice.mk "X" 15000] - PriceDumpMargin)
            (GetMinCompetitorPrice [CompetitorPrice.mk "X" 15000])]))
    ∧ GetMinCompetitorPrice [CompetitorPrice.mk "X" 15000] - PriceDumpMargin = 14999 :=
  ⟨processProduct_update_commits_candidate (envObs [CompetitorPrice.mk "X" 15000]) clientA
      prodScenario1 [CompetitorPrice.mk "X" 15000] rfl (by decide)
      (by norm_num [prodScenario1, GetMinCompetitorPrice, PriceDumpMargin])
      (by norm_num [prodScenario1, GetMinCompetitorPrice, PriceDumpMargin]) rfl rfl,
   by norm_num [GetMinCompetitorPrice, PriceDumpMargin]⟩

/-- Claim C6: on the floor-guard skip path and on the already-optimal skip
path, `processProduct` makes exactly one mutation call: the store write of
the unchanged current price together with the refreshed competitor minimum
(which also bumps the last-checked timestamp); no publish call is made. -/
theorem processProduct_skip_refreshes_competitor_min
    (env : DumpEnv) (client : Client) (product : Product) (obs : List CompetitorPrice)
    (hfetch : env.getCompetitorPrices client product.externalID = Except.ok obs)
    (hne : obs ≠ [])
    (hcase : (0 < product.minPrice ∧
        GetMinCompetitorPrice obs - PriceDumpMargin < product.minPrice)
      ∨ product.price = GetMinCompetitorPrice obs - PriceDumpMargin) :
    (processProduct env client product).2
      = [Event.storeUpdatePrice product.id product.price (GetMinCompetitorPrice obs)] := by
  have hlen : ¬ obs.length = 0 := by simpa [List.length_eq_zero] using hne
  simp only [processProduct, hfetch]
  rw [if_neg hlen]
  rcases hcase with hguard | hopt
  · rw [if_pos hguard]
  · by_cases hguard : 0 < product.minPrice ∧
        GetMinCompetitorPrice obs - PriceDumpMargin < product.minPrice
    · rw [if_pos hguard]
    · rw [if_neg hguard, if_pos hopt]

/-- Claim C6, witness: floor-guard skip (current 100, floor 200, competitor
minimum 150): the only mutation is the store write of the unchanged price
100 with competitor minimum 150. -/
theorem processProduct_skip_refreshes_competitor_min_witness :
    (processProduct (envObs [CompetitorPrice.mk "S" 150]) clientA prodBelowFloor).2
      = [Event.storeUpdatePrice "p2" 100 (GetMinCompetitorPrice [CompetitorPrice.mk "S" 150])] :=
  processProduct_skip_refreshes_competitor_min (envObs [CompetitorPrice.mk "S" 150]) clientA
    prodBelowFloor [CompetitorPrice.mk "S" 150] rfl (by decide)
    (Or.inl (by norm_num [prodBelowFloor, GetMinCompetitorPrice, PriceDumpMargin]))

/-- Claim C1 (amended): whenever `processProduct` decides an update (a
publish call appears in its trace), the published price respects a positive
floor, and it is non-negative provided the minimum observed competitor
price is at least the margin; without that proviso the price can be
negative, as the code never clamps the candidate to 0. -/
theorem processProduct_update_respects_floor
    (env : DumpEnv) (client : Client) (product : Product) (obs : List CompetitorPrice)
    (hfetch : env.getCompetitorPrices client product.externalID = Except.ok obs)
    (e : String) (x : Rat)
    (hx : Event.publishPrice e x ∈ (processProduct env client product).2) :
    (0 < product.minPrice → product.minPrice ≤ x) ∧
    (PriceDumpMargin ≤ GetMinCompetitorPrice obs → 0 ≤ x) := by
  simp only [processProduct, hfetch] at hx
  by_cases hlen : obs.length = 0
  · rw [if_pos hlen] at hx
    simp at hx
  · rw [if_neg hlen] at hx
    by_cases hguard : 0 < product.minPrice ∧
        GetMinCompetitorPrice obs - PriceDumpMargin < product.minPrice
    · rw [if_pos hguard] at hx
      simp at hx
    · rw [if_neg hguard] at hx
      by_cases hopt : product.price = GetMinCompetitorPrice obs - PriceDumpMargin
      · rw [if_pos hopt] at hx
        simp at hx
      · rw [if_neg hopt] at hx
        push_neg at hguard
        cases hpub : env.updateProductPrice client product.externalID
            (GetMinCompetitorPrice obs - PriceDumpMargin) with
        | error msg =>
          rw [hpub] at hx
          simp at hx
          obtain ⟨-, hxeq⟩ := hx
          subst hxeq
          exact ⟨hguard, fun hm => sub_nonneg.mpr hm⟩
        | ok u =>
          rw [hpub] at hx
          simp at hx
          obtain ⟨-, hxeq⟩ := hx
          subst hxeq
          exact ⟨hguard, fun hm => sub_nonneg.mpr hm⟩

/-- Claim C1 (amended), witness: observations `[(X, 15000)]` against a
product with floor 14000 and current price 15500: the published price
14999 is above the floor and non-negative. -/
theorem processProduct_update_respects_floor_witness :
    (0 < prodFloor.minPrice → prodFloor.minPrice ≤ 14999) ∧
    (PriceDumpMargin ≤ GetMinCompetitorPrice [CompetitorPrice.mk "X" 15000] → 0 ≤ (14999 : Rat)) :=
  processProduct_update_respects_floor (envObs [CompetitorPrice.mk "X" 15000]) clientA prodFloor
    [CompetitorPrice.mk "X" 15000] rfl "e4" 14999
    (by norm_num [processProduct, envObs, prodFloor, GetMinCompetitorPrice, PriceDumpMargin])

/-- Claim C2 (amended): for a product with a positive floor, every store
write `processProduct` makes carries either the unchanged current price
(the skip paths — even if that current price already sits below the floor)
or a value at or above the floor (the update path); the engine therefore
never moves a price from at-or-above the floor to below it. -/
theorem processProduct_store_writes_respect_floor
    (env : DumpEnv) (client : Client) (product : Product)
    (hfloor : 0 < product.minPrice) (i : String) (p cm : Rat)
    (hmem : Event.storeUpdatePrice i p cm ∈ (processProduct env client product).2) :
    p = product.price ∨ product.minPrice ≤ p := by
  cases hf : env.getCompetitorPrices client product.externalID with
  | error e => simp [processProduct, hf] at hmem
  | ok obs =>
    simp only [processProduct, hf] at hmem
    by_cases hlen : obs.length = 0
    · rw [if_pos hlen] at hmem
      simp at hmem
    · rw [if_neg hlen] at hmem
      by_cases hguard : 0 < product.minPrice ∧
          GetMinCompetitorPrice obs - PriceDumpMargin < product.minPrice
      · rw [if_pos hguard] at hmem
        simp at hmem
        exact Or.inl hmem.2.1
      · rw [if_neg hguard] at hmem
        by_cases hopt : product.price = GetMinCompetitorPrice obs - PriceDumpMargin
        · rw [if_pos hopt] at hmem
          simp at hmem
          exact Or.inl hmem.2.1
        · rw [if_neg hopt] at hmem
          push_neg at hguard
          cases hpub : env.updateProductPrice client product.externalID
              (GetMinCompetitorPrice obs - PriceDumpMargin) with
          | error msg =>
            rw [hpub] at hmem
            simp at hmem
          | ok u =>
            rw [hpub] at hmem
            simp at hmem
            obtain ⟨-, hp, -⟩ := hmem
            subst hp
            exact Or.inr (hguard hfloor)

/-- Claim C2 (amended), witness: the floor-guard write on a product whose
current price 100 is below its floor 200 is the unchanged current price. -/
theorem processProduct_store_writes_respect_floor_witness :
    (100 : Rat) = prodBelowFloor.price ∨ prodBelowFloor.minPrice ≤ 100 :=
  processProduct_store_writes_respect_floor (envObs [CompetitorPrice.mk "S" 150]) clientA
    prodBelowFloor (by norm_num [prodBelowFloor]) "p2" 100 150
    (by norm_num [processProduct, envObs, prodBelowFloor, GetMinCompetitorPrice, PriceDumpMargin])

/-- Claim C4: any publish call made by `processProduct` is the first
mutation in its trace (write-after-publish ordering), and when the publish
call fails the trace contains that publish call and nothing else — in
particular no store write — and the product's processing returns the
wrapped publish error. -/
theorem processProduct_publish_before_store_write
    (env : DumpEnv) (client : Client) (product : Product) :
    (∀ e x, Event.publishPrice e x ∈ (processProduct env client product).2 →
      ∃ rest, (processProduct env client product).2 = Event.publishPrice e x :: rest) ∧
    (∀ e x msg, env.updateProductPrice client e x = Except.error msg →
      Event.publishPrice e x ∈ (processProduct env client product).2 →
      (processProduct env client product).2 = [Event.publishPrice e x] ∧
      (processProduct env client product).1
        = Except.error ("failed to update price on Kaspi: " ++ msg)) := by
  cases hf : env.getCompetitorPrices client product.externalID with
  | error err =>
    constructor
    · intro e x hx; simp [processProduct, hf] at hx
    · intro e x msg _ hx; simp [processProduct, hf] at hx
  | ok obs =>
    by_cases hlen : obs.length = 0
    · constructor
      · intro e x hx; simp [processProduct, hf, hlen] at hx
      · intro e x msg _ hx; simp [processProduct, hf, hlen] at hx
    · by_cases hguard : 0 < product.minPrice ∧
          GetMinCompetitorPrice obs - PriceDumpMargin < product.minPrice
      · constructor
        · intro e x hx
          simp only [processProduct, hf] at hx
          rw [if_neg hlen, if_pos hguard] at hx
          simp at hx
        · intro e x msg _ hx
          simp only [processProduct, hf] at hx
          rw [if_neg hlen, if_pos hguard] at hx
          simp at hx
      · by_cases hopt : product.price = GetMinCompetitorPrice obs - PriceDumpMargin
        · constructor
          · intro e x hx
            simp only [processProduct, hf] at hx
            rw [if_neg hlen, if_neg hguard, if_pos hopt] at hx
            simp at hx
          · intro e x msg _ hx
            simp only [processProduct, hf] at hx
            rw [if_neg hlen, if_neg hguard, if_pos hopt] at hx
            simp at hx
        · cases hpub : env.updateProductPrice client product.externalID
              (GetMinCompetitorPrice obs - PriceDumpMargin) with
          | error m =>
            have htr : (processProduct env client product).2
                = [Event.publishPrice product.externalID
                    (GetMinCompetitorPrice obs - PriceDumpMargin)] := by
              simp only [processProduct, hf]
              rw [if_neg hlen, if_neg hguard, if_neg hopt, hpub]
            have hres : (processProduct env client product).1
                = Except.error ("failed to update price on Kaspi: " ++ m) := by
              simp only [processProduct, hf]
              rw [if_neg hlen, if_neg hguard, if_neg hopt, hpub]
            constructor
            · intro e x hx
              rw [htr] at hx
              simp at hx
              obtain ⟨he, hxeq⟩ := hx
              subst he; subst hxeq
              exact ⟨[], htr⟩
            · intro e x msg hmsg hx
              rw [htr] at hx
              simp at hx
              obtain ⟨he, hxeq⟩ := hx
              subst he; subst hxeq
              rw [hpub] at hmsg
              obtain rfl : m = msg := by
                injection hmsg
              exact ⟨htr, hres⟩
          | ok u =>
            have htr : (processProduct env client product).2
                = [Event.publishPrice product.externalID
                    (GetMinCompetitorPrice obs - PriceDumpMargin),
                   Event.storeUpdatePrice product.id
                    (GetMinCompetitorPrice obs - PriceDumpMargin)
                    (GetMinCompetitorPrice obs)] := by
              simp only [processProduct, hf]
              rw [if_neg hlen, if_neg hguard, if_neg hopt, hpub]
            constructor
            · intro e x hx
              rw [htr] at hx
              simp at hx
              obtain ⟨he, hxeq⟩ := hx
              subst he; subst hxeq
              exact ⟨_, htr⟩
            · intro e x msg hmsg hx
              rw [htr] at hx
              simp at hx
              obtain ⟨he, hxeq⟩ := hx
              subst he; subst hxeq
              rw [hpub] at hmsg
              exact absurd hmsg (by simp)

/-- Environment whose publish call fails while everything else succeeds. -/
def envPubFail : DumpEnv where
  getCompetitorPrices := fun _ _ => Except.ok [CompetitorPrice.mk "X" 15000]
  updateProductPrice := fun _ _ _ => Except.error "boom"
  repoUpdatePrice := fun _ _ _ => Except.ok ()
  getProductsForDumping := fun _ => Except.ok []
  getAllActive := Except.ok []
  decrypt := fun _ => Except.ok "key"

/-- Claim C4, witness: with a failing publish call, the trace is exactly
the publish attempt — no store write — and the result is the wrapped
publish error. -/
theorem processProduct_publish_before_store_write_witness :
    (processProduct envPubFail clientA prodScenario1).2 = [Event.publishPrice "e3" 14999] ∧
    (processProduct envPubFail clientA prodScenario1).1
      = Except.error ("failed to update price on Kaspi: " ++ "boom") :=
  (processProduct_publish_before_store_write envPubFail clientA prodScenario1).2
    "e3" 14999 "boom" rfl
    (by norm_num [processProduct, envPubFail, prodScenario1, GetMinCompetitorPrice, PriceDumpMargin])

/-- Claim C7: `ProcessAllUsers` returns an error exactly when credential
enumeration (`kaspiKeyRepo.GetAllActive`) fails; in that case it ends with
no user processed (empty trace, zero counts), and whenever enumeration
succeeds it returns success no matter how many per-user passes failed. -/
theorem processAllUsers_error_iff_enumeration_fails (env : DumpEnv) (now : Rat) :
    ((∃ msg, (ProcessAllUsers env now).1 = Except.error msg) ↔
      ∃ e, env.getAllActive = Except.error e) ∧
    (∀ e, env.getAllActive = Except.error e →
      ProcessAllUsers env now
        = (Except.error ("failed to get active keys: " ++ e), [], 0, 0)) ∧
    (∀ keys, env.getAllActive = Except.ok keys →
      (ProcessAllUsers env now).1 = Except.ok ()) := by
  refine ⟨?_, ?_, ?_⟩
  · cases hk : env.getAllActive with
    | error e =>
      constructor
      · intro _; exact ⟨e, rfl⟩
      · intro _
        exact ⟨"failed to get active keys: " ++ e, by simp [ProcessAllUsers, hk]⟩
    | ok keys =>
      constructor
      · rintro ⟨msg, hmsg⟩
        simp [ProcessAllUsers, hk] at hmsg
      · rintro ⟨e, he⟩
        exact absurd he (by simp)
  · intro e he
    simp [ProcessAllUsers, he]
  · intro keys hkeys
    simp [ProcessAllUsers, hkeys]

/-- Environment whose credential enumeration fails. -/
def envKeysFail : DumpEnv where
  getCompetitorPrices := fun _ _ => Except.ok []
  updateProductPrice := fun _ _ _ => Except.ok ()
  repoUpdatePrice := fun _ _ _ => Except.ok ()
  getProductsForDumping := fun _ => Except.ok []
  getAllActive := Except.error "db down"
  decrypt := fun _ => Except.ok "key"

/-- Claim C7, witness: a failing credential enumeration makes the whole
cycle return the wrapped error with nothing processed. -/
theorem processAllUsers_error_iff_enumeration_fails_witness :
    ProcessAllUsers envKeysFail 0
      = (Except.error ("failed to get active keys: " ++ "db down"), [], 0, 0) :=
  (processAllUsers_error_iff_enumeration_fails envKeysFail 0).2.1 "db down" rfl

/-- The trace accumulated by the per-product loop body over any starting
accumulator is the starting trace followed by each product's own trace. -/
theorem processLoop_trace_accum (env : DumpEnv) (client : Client) (now : Rat)
    (products : List Product) :
    ∀ acc : List Event × Nat × Nat,
      (products.foldl
        (fun acc product =>
          match processProduct env client product with
          | (Except.error _, tr) => (acc.1 ++ tr, acc.2.1, acc.2.2)
          | (Except.ok _, tr) =>
              (acc.1 ++ tr, acc.2.1 + 1,
               if now - 10 < product.lastPriceCheckAt then acc.2.2 + 1 else acc.2.2)) acc).1
      = acc.1 ++ (products.map fun p => (processProduct env client p).2).flatten := by
  induction products with
  | nil => intro acc; simp
  | cons p ps ih =>
    intro acc
    simp only [List.foldl_cons, List.map_cons, List.flatten_cons]
    rw [ih]
    cases hp : processProduct env client p with
    | mk res tr =>
      cases res with
      | error err => simp [List.append_assoc]
      | ok u => simp [List.append_assoc]

/-- The trace accumulated by the per-user loop body over any starting
accumulator is the starting trace followed by each user's own trace. -/
theorem usersLoop_trace_accum (env : DumpEnv) (now : Rat) (keys : List KaspiKey) :
    ∀ acc : List Event × Nat × Nat,
      (keys.foldl
        (fun acc key =>
          match ProcessUserProducts env now key.userID key with
          | (Except.error _, tr, _, _) => (acc.1 ++ tr, acc.2.1, acc.2.2 + 1)
          | (Except.ok _, tr, _, _) => (acc.1 ++ tr, acc.2.1 + 1, acc.2.2)) acc).1
      = acc.1 ++ (keys.map fun k => (ProcessUserProducts env now k.userID k).2.1).flatten := by
  induction keys with
  | nil => intro acc; simp
  | cons k ks ih =>
    intro acc
    simp only [List.foldl_cons, List.map_cons, List.flatten_cons]
    rw [ih]
    cases hk : ProcessUserProducts env now k.userID k with
    | mk res rest =>
      cases res with
      | error err => simp [List.append_assoc]
      | ok u => simp [List.append_assoc]

/-- Claim C8: per-item fault isolation: the trace of a user's per-product
loop is the concatenation of every listed product's own `processProduct`
trace — each product's processing happens and contributes its effects
regardless of failures among the products before it — and the trace of the
per-user loop is likewise the concatenation of every credentialed user's
own pass, regardless of failures of earlier users. -/
theorem repricing_per_item_isolation (env : DumpEnv) (now : Rat) :
    (∀ client products, (processLoop env client now products).1
       = (products.map fun p => (processProduct env client p).2).flatten) ∧
    (∀ keys, (usersLoop env now keys).1
       = (keys.map fun k => (ProcessUserProducts env now k.userID k).2.1).flatten) := by
  constructor
  · intro client products
    have h := processLoop_trace_accum env client now products ([], 0, 0)
    simpa [processLoop] using h
  · intro keys
    have h := usersLoop_trace_accum env now keys ([], 0, 0)
    simpa [usersLoop] using h

/-- Product A, whose competitor fetch fails in `envIso`. -/
def prodA : Product :=
  { id := "pA", externalID := "eA", name := "A", price := 100, minPrice := 0, lastPriceCheckAt := 0 }

/-- Product B, processed after the failing product A. -/
def prodB : Product :=
  { id := "pB", externalID := "eB", name := "B", price := 15500, minPrice := 0, lastPriceCheckAt := 0 }

/-- Environment in which fetching competitor prices fails for product A
(`eA`) only, and everything else succeeds. -/
def envIso : DumpEnv where
  getCompetitorPrices := fun _ ext =>
    if ext = "eA" then Except.error "network" else Except.ok [CompetitorPrice.mk "X" 15000]
  updateProductPrice := fun _ _ _ => Except.ok ()
  repoUpdatePrice := fun _ _ _ => Except.ok ()
  getProductsForDumping := fun _ => Except.ok [prodA, prodB]
  getAllActive := Except.ok [keyA]
  decrypt := fun _ => Except.ok "key"

/-- Claim C8, witness: product A's competitor fetch fails, yet product B,
later in the same pass, is still processed and its price update is
published: B's publish call appears in the pass's trace. -/
theorem repricing_per_item_isolation_witness :
    ((processLoop envIso clientA 0 [prodA, prodB]).1
      = ([prodA, prodB].map fun p => (processProduct envIso clientA p).2).flatten) ∧
    (processProduct envIso clientA prodA).1
      = Except.error ("failed to get competitor prices: " ++ "network") ∧
    Event.publishPrice "eB" 14999 ∈ (processLoop envIso clientA 0 [prodA, prodB]).1 := by
  have hfA : envIso.getCompetitorPrices clientA "eA" = Except.error "network" := by
    simp [envIso]
  have hfB : envIso.getCompetitorPrices clientA "eB"
      = Except.ok [CompetitorPrice.mk "X" 15000] := by
    simp only [envIso]
    rw [if_neg (by decide : ¬ ("eB" : String) = "eA")]
  have hA : processProduct envIso clientA prodA
      = (Except.error ("failed to get competitor prices: " ++ "network"), []) := by
    norm_num [processProduct, prodA, hfA]
  have hpubB : envIso.updateProductPrice clientA "eB" 14999 = Except.ok () := rfl
  have hstoreB : envIso.repoUpdatePrice "pB" 14999 15000 = Except.ok () := rfl
  have hB : processProduct envIso clientA prodB
      = (Except.ok (),
         [Event.publishPrice "eB" 14999, Event.storeUpdatePrice "pB" 14999 15000]) := by
    norm_num [processProduct, prodB, hfB, hpubB, hstoreB, GetMinCompetitorPrice, PriceDumpMargin]
  refine ⟨(repricing_per_item_isolation envIso 0).1 clientA [prodA, prodB], ?_, ?_⟩
  · rw [hA]
  · rw [(repricing_per_item_isolation envIso 0).1 clientA [prodA, prodB]]
    simp [hA, hB]

end SellerAssistant
